import Mathlib

/-!
Verification of the presenterm slide pipeline: a shallow embedding of the
document compiler (`src/parse.rs`) and the slide renderer (`src/draw.rs`),
together with theorems settling the specified properties.

The shared data model (`elements.rs`, `slide.rs`) is not present in the
sources; its types are modelled from the specification (section 3) and are
fully constrained by their call sites in `parse.rs` and `draw.rs`.
-/

/-- Modelled from the spec: `TextFormat` (file `elements.rs` is absent from
the sources): a composable attribute set over Bold and Italic. Default is
empty; combining two formats is a union. -/
structure TextFormat where
  bold : Bool
  italics : Bool
deriving DecidableEq, Repr

/-- Modelled from the spec: the default (empty) format. -/
def TextFormat.default : TextFormat := { bold := false, italics := false }

/-- Modelled from the spec: union of two formats (per-flag disjunction). -/
def TextFormat.union (a b : TextFormat) : TextFormat :=
  { bold := a.bold || b.bold, italics := a.italics || b.italics }

/-- Modelled from the spec: `add_bold` as used in `parse.rs` sets the Bold
flag, leaving the Italic flag unchanged. -/
def TextFormat.add_bold (f : TextFormat) : TextFormat :=
  { f with bold := true }

/-- Modelled from the spec: `add_italics` as used in `parse.rs` sets the
Italic flag, leaving the Bold flag unchanged. -/
def TextFormat.add_italics (f : TextFormat) : TextFormat :=
  { f with italics := true }

/-- Modelled from the spec: `has_bold` as used in `draw.rs`. -/
def TextFormat.has_bold (f : TextFormat) : Bool := f.bold

/-- Modelled from the spec: `has_italics` as used in `draw.rs`. -/
def TextFormat.has_italics (f : TextFormat) : Bool := f.italics

/-- Modelled from the spec: `TextChunk` is a run of text with one format. -/
structure TextChunk where
  text : String
  format : TextFormat
deriving DecidableEq, Repr

/-- Modelled from the spec: `TextChunk::formatted` constructor. -/
def TextChunk.formatted (text : String) (format : TextFormat) : TextChunk :=
  { text := text, format := format }

/-- Modelled from the spec: `TextChunk::unformatted` constructor. -/
def TextChunk.unformatted (text : String) : TextChunk :=
  { text := text, format := TextFormat.default }

/-- Modelled from the spec: `Text` is an ordered sequence of chunks. -/
structure Text where
  chunks : List TextChunk
deriving DecidableEq, Repr

/-- Modelled from the spec: `Element` is a Heading (with level) or a
Paragraph, each carrying a `Text`. -/
inductive Element where
  | Heading (text : Text) (level : Nat)
  | Paragraph (text : Text)
deriving DecidableEq, Repr

/-- Modelled from the spec: `Slide` holds an ordered list of elements. -/
structure Slide where
  elements : List Element
deriving DecidableEq, Repr

/-- Modelled from the spec: `Slide::new`. -/
def Slide.new (elements : List Element) : Slide := { elements := elements }

/-- The comrak `NodeValue` node kinds, as matched in `parse.rs`. Payloads
not inspected by the program are omitted; the heading level and literal
text content are kept because `parse.rs` reads them. -/
inductive NodeValue where
  | document
  | frontMatter
  | blockQuote
  | list
  | item
  | descriptionList
  | descriptionItem
  | descriptionTerm
  | descriptionDetails
  | codeBlock
  | htmlBlock
  | paragraph
  | heading (level : Nat)
  | thematicBreak
  | footnoteDefinition
  | table
  | tableRow
  | tableCell
  | text (content : String)
  | taskItem
  | softBreak
  | lineBreak
  | code
  | htmlInline
  | emph
  | strong
  | strikethrough
  | superscript
  | link
  | image
  | footnoteReference
deriving DecidableEq, Repr

/-- `NodeValue::identifier` from `parse.rs`: the stable diagnostic name of
each node kind. -/
def NodeValue.identifier : NodeValue → String
  | .document => "document"
  | .frontMatter => "front matter"
  | .blockQuote => "block quote"
  | .list => "list"
  | .item => "item"
  | .descriptionList => "description list"
  | .descriptionItem => "description item"
  | .descriptionTerm => "description term"
  | .descriptionDetails => "description details"
  | .codeBlock => "code block"
  | .htmlBlock => "html block"
  | .paragraph => "paragraph"
  | .heading _ => "heading"
  | .thematicBreak => "thematic break"
  | .footnoteDefinition => "footnote definition"
  | .table => "table"
  | .tableRow => "table row"
  | .tableCell => "table cell"
  | .text _ => "text"
  | .taskItem => "task item"
  | .softBreak => "soft break"
  | .lineBreak => "line break"
  | .code => "code"
  | .htmlInline => "inline html"
  | .emph => "emph"
  | .strong => "strong"
  | .strikethrough => "strikethrough"
  | .superscript => "superscript"
  | .link => "link"
  | .image => "image"
  | .footnoteReference => "footnote reference"

/-- A comrak `AstNode`: a node value together with its ordered children.
This is the parsed document tree the compiler consumes. -/
inductive AstNode where
  | mk (value : NodeValue) (children : List AstNode)

/-- The node's kind/value. -/
def AstNode.value : AstNode → NodeValue
  | .mk v _ => v

/-- The node's ordered children. -/
def AstNode.children : AstNode → List AstNode
  | .mk _ cs => cs

/-- `ParseError` from `parse.rs`. -/
inductive ParseError where
  | UnsupportedElement (element : String)
  | UnsupportedStructure (container : String) (element : String)
deriving DecidableEq, Repr

namespace SlideParser

/-- `SlideParser::parse_text_chunks` from `parse.rs`, phrased over the list
of children of the node being walked: a literal text run emits one chunk
with the accumulated format; `Strong` recurses with the format plus Bold and
`Emph` with the format plus Italic, splicing the resulting chunks in place;
any other kind aborts with `UnsupportedStructure`. -/
def parse_text_chunks : List AstNode → TextFormat → Except ParseError (List TextChunk)
  | [], _ => .ok []
  | .mk v cs :: rest, format =>
    match v with
    | .text content => do
      let tail ← parse_text_chunks rest format
      .ok (TextChunk.formatted content format :: tail)
    | .strong => do
      let inner ← parse_text_chunks cs format.add_bold
      let tail ← parse_text_chunks rest format
      .ok (inner ++ tail)
    | .emph => do
      let inner ← parse_text_chunks cs format.add_italics
      let tail ← parse_text_chunks rest format
      .ok (inner ++ tail)
    | other => .error (.UnsupportedStructure "text" other.identifier)

/-- `SlideParser::parse_text`: compile a block's inline children with the
default (empty) format. -/
def parse_text (root : AstNode) : Except ParseError Text := do
  let chunks ← parse_text_chunks root.children TextFormat.default
  .ok { chunks := chunks }

/-- `SlideParser::parse_heading`. -/
def parse_heading (level : Nat) (node : AstNode) : Except ParseError Element := do
  let text ← parse_text node
  .ok (Element.Heading text level)

/-- `SlideParser::parse_paragraph`. -/
def parse_paragraph (node : AstNode) : Except ParseError Element := do
  let text ← parse_text node
  .ok (Element.Paragraph text)

/-- `SlideParser::parse_element`: dispatch on the block kind; headings and
paragraphs compile, anything else is `UnsupportedElement`. -/
def parse_element (node : AstNode) : Except ParseError Element :=
  match node.value with
  | .heading level => parse_heading level node
  | .paragraph => parse_paragraph node
  | other => .error (.UnsupportedElement other.identifier)

/-- The loop body of `SlideParser::parse`: iterate the top-level children
left to right carrying the slides built so far and the accumulator of the
current slide; a thematic break flushes the accumulator (taking it, even if
empty) into a new slide; any other block appends one parsed element.  After
the children are consumed, a non-empty accumulator is flushed into a final
slide. -/
def parse_loop : List AstNode → List Slide → List Element → Except ParseError (List Slide)
  | [], slides, slide_elements =>
    if slide_elements.isEmpty then .ok slides
    else .ok (slides ++ [Slide.new slide_elements])
  | node :: rest, slides, slide_elements =>
    match node.value with
    | .thematicBreak => parse_loop rest (slides ++ [Slide.new slide_elements]) []
    | _ => do
      let e ← parse_element node
      parse_loop rest slides (slide_elements ++ [e])

/-- `SlideParser::parse`, starting from the root of the parsed document
(the external markdown parse itself is out of scope: the input here is the
already-parsed tree). -/
def parse (root : AstNode) : Except ParseError (List Slide) :=
  parse_loop root.children [] []

end SlideParser

/-- The crossterm attribute values used by `draw.rs`. -/
inductive TermAttribute where
  | bold
  | reset
deriving DecidableEq, Repr

/-- The terminal operations `draw.rs` queues on its stdout handle (the
crossterm commands it uses), plus the show-cursor command, which the sink
supports but the renderer never emits. -/
inductive DrawOp where
  | hideCursor
  | showCursor
  | clearAll
  | moveTo (column row : Nat)
  | moveToColumn (column : Nat)
  | moveDown (rows : Nat)
  | setAttribute (a : TermAttribute)
  | printStyledContent (content : String) (bold italic : Bool)
  | flush
deriving DecidableEq, Repr

/-- The buffered output handle: `handle.queue(op)` appends the operation to
the buffer of queued operations. -/
def queueOp (handle : List DrawOp) (op : DrawOp) : List DrawOp :=
  handle ++ [op]

namespace Drawer

/-- `Drawer::new` from `draw.rs`: acquire stdout (an empty buffer) and
immediately queue a hide-cursor command. -/
def new : List DrawOp :=
  queueOp [] .hideCursor

/-- `Drawer::draw_text` from `draw.rs`: print each chunk in order, styled
with bold and/or italic according to the chunk's own format. -/
def draw_text (handle : List DrawOp) (text : Text) : List DrawOp :=
  text.chunks.foldl
    (fun h chunk =>
      queueOp h (.printStyledContent chunk.text chunk.format.has_bold chunk.format.has_italics))
    handle

/-- `Drawer::draw_element` from `draw.rs`: move to column 0, then for a
heading set bold, draw the text, move down 2 rows and reset attributes; for
a paragraph draw the text and move down 2 rows. -/
def draw_element (handle : List DrawOp) (element : Element) : List DrawOp :=
  match element with
  | .Heading text _level =>
    let h := queueOp handle (.moveToColumn 0)
    let h := queueOp h (.setAttribute .bold)
    let h := draw_text h text
    let h := queueOp h (.moveDown 2)
    queueOp h (.setAttribute .reset)
  | .Paragraph text =>
    let h := queueOp handle (.moveToColumn 0)
    let h := draw_text h text
    queueOp h (.moveDown 2)

/-- `Drawer::draw_slide` from `draw.rs`: draw each element in order, then
flush the buffered output to the sink once. -/
def draw_slide (handle : List DrawOp) (slide : Slide) : List DrawOp :=
  queueOp (slide.elements.foldl draw_element handle) .flush

/-- `Drawer::draw` from `draw.rs`: clear the screen, move to the origin,
then draw `slides[0]`.  Rust's `slides[0]` panics on an empty slice; the
panic is modelled as `none`. -/
def draw (handle : List DrawOp) (slides : List Slide) : Option (List DrawOp) :=
  (slides[0]?).map
    (fun s => draw_slide (queueOp (queueOp handle .clearAll) (.moveTo 0 0)) s)

end Drawer

/-! ## Specification-side definitions

These follow the words of the spec, to be compared with the embedded code:
flat operation sequences for the renderer, and the predicate "the tree
contains an unsupported node kind" for the compiler's error condition. -/

/-- Spec-side: the flat operation sequence for drawing a `Text`, one styled
print per chunk, in chunk order. -/
def textOps (text : Text) : List DrawOp :=
  text.chunks.map
    (fun chunk => .printStyledContent chunk.text chunk.format.has_bold chunk.format.has_italics)

/-- Spec-side: the flat operation sequence for drawing one element: a
column-0 move first; a heading then forces bold, prints its chunks, moves
down 2 rows and resets attributes; a paragraph prints its chunks and moves
down 2 rows. -/
def elementOps : Element → List DrawOp
  | .Heading text _ =>
    .moveToColumn 0 :: .setAttribute .bold :: (textOps text ++ [.moveDown 2, .setAttribute .reset])
  | .Paragraph text =>
    .moveToColumn 0 :: (textOps text ++ [.moveDown 2])

/-- Spec-side: the flat operation sequence for a whole slide: every
element's operations in element order, then a single flush. -/
def slideOps (slide : Slide) : List DrawOp :=
  (slide.elements.flatMap elementOps) ++ [.flush]

/-- Spec-side: an inline node kind with no Text-chunk mapping (anything
other than a literal text run, strong emphasis, or emphasis). -/
def unsupportedInlineKind : NodeValue → Bool
  | .text _ => false
  | .strong => false
  | .emph => false
  | _ => true

/-- Spec-side: the inline forest under a heading or paragraph contains an
unsupported inline node in a position `parse_text_chunks` visits (children
of literal text runs are never visited). -/
def specHasBadInline : List AstNode → Bool
  | [] => false
  | .mk v cs :: rest =>
    match v with
    | .text _ => specHasBadInline rest
    | .strong => specHasBadInline cs || specHasBadInline rest
    | .emph => specHasBadInline cs || specHasBadInline rest
    | _ => true

/-- Spec-side: the list of top-level blocks contains an unsupported node
kind in a position the compiler visits: a block that is neither a heading,
paragraph nor thematic break, or a bad inline inside a heading or
paragraph.  Blocks after the first offending one are never visited. -/
def specHasBadBlock : List AstNode → Bool
  | [] => false
  | .mk v cs :: rest =>
    match v with
    | .thematicBreak => specHasBadBlock rest
    | .heading _ => specHasBadInline cs || specHasBadBlock rest
    | .paragraph => specHasBadInline cs || specHasBadBlock rest
    | _ => true

/-- Whether an `Except` value is a success. -/
def exceptIsOk {α : Type} : Except ParseError α → Bool
  | .ok _ => true
  | .error _ => false

/-! ## Characterization lemmas -/

/-- The queued buffer only grows: drawing a text appends its flat operation
sequence to the handle. -/
theorem Drawer.draw_text_eq (handle : List DrawOp) (text : Text) :
    Drawer.draw_text handle text = handle ++ textOps text := by
  obtain ⟨chunks⟩ := text
  suffices h : ∀ hd : List DrawOp, List.foldl
      (fun h chunk =>
        queueOp h (.printStyledContent chunk.text chunk.format.has_bold chunk.format.has_italics))
      hd chunks = hd ++ chunks.map
        (fun chunk => .printStyledContent chunk.text chunk.format.has_bold chunk.format.has_italics) by
    simpa [Drawer.draw_text, textOps] using h handle
  induction chunks with
  | nil => intro hd; simp
  | cons c cs ih =>
    intro hd
    rw [List.foldl_cons, ih]
    simp [queueOp]

/-- Drawing an element appends its flat operation sequence to the handle. -/
theorem Drawer.draw_element_eq (handle : List DrawOp) (element : Element) :
    Drawer.draw_element handle element = handle ++ elementOps element := by
  cases element with
  | Heading text level =>
    simp [Drawer.draw_element, elementOps, queueOp, Drawer.draw_text_eq]
  | Paragraph text =>
    simp [Drawer.draw_element, elementOps, queueOp, Drawer.draw_text_eq]

/-- Drawing a slide appends its flat operation sequence to the handle. -/
theorem Drawer.draw_slide_eq (handle : List DrawOp) (slide : Slide) :
    Drawer.draw_slide handle slide = handle ++ slideOps slide := by
  obtain ⟨elements⟩ := slide
  suffices h : ∀ hd, List.foldl Drawer.draw_element hd elements =
      hd ++ elements.flatMap elementOps by
    simp [Drawer.draw_slide, slideOps, queueOp, h handle]
  induction elements with
  | nil => intro hd; simp
  | cons e es ih =>
    intro hd
    simp [List.foldl_cons, Drawer.draw_element_eq, ih]

/-- Bind on a successful `Except` applies the continuation. -/
theorem exceptOkBind {α β : Type} (a : α) (g : α → Except ParseError β) :
    (Except.ok a >>= g) = g a := rfl

/-- Bind on a failed `Except` short-circuits: the error propagates and the
continuation never runs. -/
theorem exceptErrorBind {α β : Type} (e : ParseError) (g : α → Except ParseError β) :
    ((Except.error e : Except ParseError α) >>= g) = Except.error e := rfl

/-- Inline compilation succeeds exactly when the inline forest has no
unsupported node, for every accumulated format. -/
theorem parse_text_chunks_isOk (ns : List AstNode) (f : TextFormat) :
    exceptIsOk (SlideParser.parse_text_chunks ns f) = !specHasBadInline ns := by
  induction ns, f using SlideParser.parse_text_chunks.induct with
  | case1 f =>
    simp [SlideParser.parse_text_chunks, specHasBadInline, exceptIsOk]
  | case2 cs rest format content ih =>
    simp only [SlideParser.parse_text_chunks, specHasBadInline]
    cases h : SlideParser.parse_text_chunks rest format with
    | ok tail =>
      rw [h] at ih
      rw [exceptOkBind]
      simpa [exceptIsOk] using ih
    | error e =>
      rw [h] at ih
      rw [exceptErrorBind]
      simpa [exceptIsOk] using ih
  | case3 cs rest format ih1 ih2 =>
    simp only [SlideParser.parse_text_chunks, specHasBadInline]
    cases h1 : SlideParser.parse_text_chunks cs format.add_bold with
    | ok inner =>
      rw [h1] at ih1
      rw [exceptOkBind]
      cases h2 : SlideParser.parse_text_chunks rest format with
      | ok tail =>
        rw [h2] at ih2
        rw [exceptOkBind]
        simp only [exceptIsOk] at ih1 ih2
        simp at ih1 ih2
        simp [ih1, ih2, exceptIsOk]
      | error e =>
        rw [h2] at ih2
        rw [exceptErrorBind]
        simp only [exceptIsOk] at ih1 ih2
        simp at ih1 ih2
        simp [ih1, ih2, exceptIsOk]
    | error e =>
      rw [h1] at ih1
      rw [exceptErrorBind]
      simp only [exceptIsOk] at ih1
      simp at ih1
      simp [ih1, exceptIsOk]
  | case4 cs rest format ih1 ih2 =>
    simp only [SlideParser.parse_text_chunks, specHasBadInline]
    cases h1 : SlideParser.parse_text_chunks cs format.add_italics with
    | ok inner =>
      rw [h1] at ih1
      rw [exceptOkBind]
      cases h2 : SlideParser.parse_text_chunks rest format with
      | ok tail =>
        rw [h2] at ih2
        rw [exceptOkBind]
        simp only [exceptIsOk] at ih1 ih2
        simp at ih1 ih2
        simp [ih1, ih2, exceptIsOk]
      | error e =>
        rw [h2] at ih2
        rw [exceptErrorBind]
        simp only [exceptIsOk] at ih1 ih2
        simp at ih1 ih2
        simp [ih1, ih2, exceptIsOk]
    | error e =>
      rw [h1] at ih1
      rw [exceptErrorBind]
      simp only [exceptIsOk] at ih1
      simp at ih1
      simp [ih1, exceptIsOk]
  | case5 cs rest format other h1 h2 h3 =>
    cases other <;>
      simp_all [SlideParser.parse_text_chunks, specHasBadInline, exceptIsOk]

/-- The empty child list flushes the accumulator exactly when it is
non-empty. -/
theorem parse_loop_nil (slides : List Slide) (acc : List Element) :
    SlideParser.parse_loop [] slides acc =
      .ok (if acc.isEmpty then slides else slides ++ [Slide.new acc]) := by
  simp only [SlideParser.parse_loop]
  split <;> simp_all

/-- A thematic break at the head of the children flushes the accumulator
(even an empty one) into a new slide and restarts with an empty
accumulator; the break contributes no element. -/
theorem parse_loop_break (bc rest : List AstNode) (slides : List Slide) (acc : List Element) :
    SlideParser.parse_loop (AstNode.mk .thematicBreak bc :: rest) slides acc =
      SlideParser.parse_loop rest (slides ++ [Slide.new acc]) [] := by
  simp [SlideParser.parse_loop, AstNode.value]

/-- A non-break block whose element compiles is appended to the current
accumulator and the loop continues with the remaining siblings. -/
theorem parse_loop_cons_ne (n : AstNode) (rest : List AstNode) (slides : List Slide)
    (acc : List Element) (e : Element) (hne : n.value ≠ NodeValue.thematicBreak)
    (h : SlideParser.parse_element n = .ok e) :
    SlideParser.parse_loop (n :: rest) slides acc =
      SlideParser.parse_loop rest slides (acc ++ [e]) := by
  obtain ⟨v, cs⟩ := n
  cases v
  case thematicBreak => simp [AstNode.value] at hne
  all_goals simp_all [SlideParser.parse_loop, AstNode.value, exceptOkBind]

/-- Compilation succeeds exactly when the top-level children contain no
unsupported node kind, regardless of the slides and accumulator built so
far. -/
theorem parse_loop_isOk (ns : List AstNode) :
    ∀ (slides : List Slide) (acc : List Element),
      exceptIsOk (SlideParser.parse_loop ns slides acc) = !specHasBadBlock ns := by
  induction ns with
  | nil =>
    intro slides acc
    rw [parse_loop_nil]
    simp [specHasBadBlock, exceptIsOk]
  | cons n rest ih =>
    obtain ⟨v, cs⟩ := n
    intro slides acc
    cases v
    case thematicBreak =>
      rw [parse_loop_break]
      simp [specHasBadBlock, ih]
    case heading level =>
      simp only [SlideParser.parse_loop, AstNode.value, specHasBadBlock]
      have hc := parse_text_chunks_isOk cs TextFormat.default
      cases h : SlideParser.parse_text_chunks cs TextFormat.default with
      | ok chunks =>
        rw [h] at hc
        simp only [exceptIsOk] at hc
        simp only [SlideParser.parse_element, SlideParser.parse_heading,
          SlideParser.parse_text, AstNode.value, AstNode.children, h, exceptOkBind]
        simp at hc
        simp [hc, ih]
      | error e =>
        rw [h] at hc
        simp only [exceptIsOk] at hc
        simp only [SlideParser.parse_element, SlideParser.parse_heading,
          SlideParser.parse_text, AstNode.value, AstNode.children, h,
          exceptErrorBind, exceptIsOk]
        simp at hc
        simp [hc]
    case paragraph =>
      simp only [SlideParser.parse_loop, AstNode.value, specHasBadBlock]
      have hc := parse_text_chunks_isOk cs TextFormat.default
      cases h : SlideParser.parse_text_chunks cs TextFormat.default with
      | ok chunks =>
        rw [h] at hc
        simp only [exceptIsOk] at hc
        simp only [SlideParser.parse_element, SlideParser.parse_paragraph,
          SlideParser.parse_text, AstNode.value, AstNode.children, h, exceptOkBind]
        simp at hc
        simp [hc, ih]
      | error e =>
        rw [h] at hc
        simp only [exceptIsOk] at hc
        simp only [SlideParser.parse_element, SlideParser.parse_paragraph,
          SlideParser.parse_text, AstNode.value, AstNode.children, h,
          exceptErrorBind, exceptIsOk]
        simp at hc
        simp [hc]
    all_goals
      simp [SlideParser.parse_loop, AstNode.value, specHasBadBlock,
        SlideParser.parse_element, exceptErrorBind, exceptIsOk]

/-- A run of non-break blocks whose elements all compile appends those
elements, in order, to the accumulator. -/
theorem parse_loop_forall2 (ns : List AstNode) :
    ∀ (es : List Element),
      List.Forall₂ (fun n e => SlideParser.parse_element n = Except.ok e) ns es →
      (∀ n ∈ ns, n.value ≠ NodeValue.thematicBreak) →
      ∀ (slides : List Slide) (acc : List Element),
        SlideParser.parse_loop ns slides acc = SlideParser.parse_loop [] slides (acc ++ es) := by
  induction ns with
  | nil =>
    intro es hf hnb slides acc
    cases hf
    simp
  | cons n rest ih =>
    intro es hf hnb slides acc
    cases hf with
    | cons h hf =>
      rw [parse_loop_cons_ne n rest slides acc _ (hnb n (List.mem_cons_self n rest)) h]
      rw [ih _ hf (fun m hm => hnb m (List.mem_cons_of_mem n hm))]
      simp

/-- Chunk printing never emits a flush. -/
theorem flush_not_mem_textOps (t : Text) : DrawOp.flush ∉ textOps t := by
  simp [textOps]

/-- Element drawing never emits a flush: the only flush comes from
`draw_slide`, after all elements. -/
theorem flush_not_mem_elementOps (e : Element) : DrawOp.flush ∉ elementOps e := by
  cases e <;> simp [elementOps, textOps]

/-- Chunk printing never emits a show-cursor command. -/
theorem showCursor_not_mem_textOps (t : Text) : DrawOp.showCursor ∉ textOps t := by
  simp [textOps]

/-- Element drawing never emits a show-cursor command. -/
theorem showCursor_not_mem_elementOps (e : Element) : DrawOp.showCursor ∉ elementOps e := by
  cases e <;> simp [elementOps, textOps]

/-- Slide drawing never emits a show-cursor command. -/
theorem showCursor_not_mem_slideOps (s : Slide) : DrawOp.showCursor ∉ slideOps s := by
  simp only [slideOps, List.mem_append]
  rintro (h | h)
  · obtain ⟨e, _, he⟩ := List.mem_flatMap.mp h
    exact showCursor_not_mem_elementOps e he
  · simp at h

/-- The tree for the paragraph block holding the literal text `"A"`. -/
def paraA : AstNode := AstNode.mk .paragraph [AstNode.mk (.text "A") []]

/-- The tree for the paragraph block holding the literal text `"B"`. -/
def paraB : AstNode := AstNode.mk .paragraph [AstNode.mk (.text "B") []]

/-- The tree for the paragraph block holding the literal text `"C"`. -/
def paraC : AstNode := AstNode.mk .paragraph [AstNode.mk (.text "C") []]

/-- The element compiled from `paraA`. -/
def elemA : Element := Element.Paragraph { chunks := [TextChunk.unformatted "A"] }

/-- The document tree comrak produces for `"A\n\n---\nB\n\n***\nC"`: both
`---` and `***` parse to thematic-break blocks around three paragraphs. -/
def exampleDocABC : AstNode :=
  AstNode.mk .document
    [paraA, AstNode.mk .thematicBreak [], paraB, AstNode.mk .thematicBreak [], paraC]

/-- C1: the compiler iterates top-level children once, left to right: every
thematic break flushes the accumulator into a new Slide (even an empty one)
and contributes no Element itself; every other top-level block contributes
exactly one Element appended to the accumulator in document order; and the
tree of `"A\n\n---\nB\n\n***\nC"` (two break-marker styles) yields three
slides each holding one paragraph with unformatted text "A", "B", "C". -/
theorem claim1_slide_splitting :
    (∀ (bc rest : List AstNode) (slides : List Slide) (acc : List Element),
      SlideParser.parse_loop (AstNode.mk .thematicBreak bc :: rest) slides acc =
        SlideParser.parse_loop rest (slides ++ [Slide.new acc]) []) ∧
    (∀ (n : AstNode) (rest : List AstNode) (slides : List Slide) (acc : List Element)
        (e : Element), n.value ≠ NodeValue.thematicBreak →
      SlideParser.parse_element n = .ok e →
      SlideParser.parse_loop (n :: rest) slides acc =
        SlideParser.parse_loop rest slides (acc ++ [e])) ∧
    SlideParser.parse exampleDocABC =
      .ok [Slide.new [Element.Paragraph { chunks := [TextChunk.unformatted "A"] }],
           Slide.new [Element.Paragraph { chunks := [TextChunk.unformatted "B"] }],
           Slide.new [Element.Paragraph { chunks := [TextChunk.unformatted "C"] }]] := by
  refine ⟨parse_loop_break, fun n rest slides acc e hne h =>
    parse_loop_cons_ne n rest slides acc e hne h, ?_⟩
  simp [SlideParser.parse, SlideParser.parse_loop, SlideParser.parse_element,
    SlideParser.parse_paragraph, SlideParser.parse_text, SlideParser.parse_text_chunks,
    exampleDocABC, paraA, paraB, paraC, AstNode.children, AstNode.value,
    TextChunk.unformatted, TextChunk.formatted, Slide.new, exceptOkBind]

/-- C1 witness: the second part of the claim applied to the concrete
paragraph block `paraA`, whose hypotheses hold there. -/
theorem claim1_slide_splitting_witness :
    SlideParser.parse_loop [paraA] [] [] = SlideParser.parse_loop [] [] [elemA] := by
  have h := claim1_slide_splitting.2.1 paraA [] [] [] elemA
    (by simp [paraA, AstNode.value])
    (by simp [SlideParser.parse_element, SlideParser.parse_paragraph,
      SlideParser.parse_text, SlideParser.parse_text_chunks, paraA, elemA,
      AstNode.value, AstNode.children, TextChunk.unformatted, TextChunk.formatted,
      exceptOkBind])
  simpa using h

/-- C3: compilation fails exactly when the tree contains an unsupported
node kind in a visited position; an unsupported top-level block yields
`UnsupportedElement` with that kind's name, and an unsupported inline
inside a paragraph or heading yields `UnsupportedStructure` naming the
container "text" and the offending kind; the `Except` result carries no
partial slide list in the error case. -/
theorem claim3_unsupported_errors :
    (∀ root : AstNode,
      exceptIsOk (SlideParser.parse root) = !specHasBadBlock root.children) ∧
    SlideParser.parse (AstNode.mk .document [AstNode.mk .codeBlock []]) =
      .error (ParseError.UnsupportedElement "code block") ∧
    SlideParser.parse (AstNode.mk .document [AstNode.mk .paragraph [AstNode.mk .link []]]) =
      .error (ParseError.UnsupportedStructure "text" "link") ∧
    SlideParser.parse (AstNode.mk .document
        [AstNode.mk (.heading 1) [AstNode.mk .code []]]) =
      .error (ParseError.UnsupportedStructure "text" "code") := by
  refine ⟨fun root => parse_loop_isOk root.children [] [], ?_, ?_, ?_⟩ <;>
    simp [SlideParser.parse, SlideParser.parse_loop, SlideParser.parse_element,
      SlideParser.parse_paragraph, SlideParser.parse_heading, SlideParser.parse_text,
      SlideParser.parse_text_chunks, AstNode.children, AstNode.value,
      NodeValue.identifier, exceptOkBind, exceptErrorBind]

/-- C5: after the children are consumed the accumulator is flushed into a
final slide exactly when non-empty; a document ending exactly on a
thematic break gains no trailing empty slide; and a document with no
thematic breaks and at least one block yields exactly one slide holding
all its elements in order. -/
theorem claim5_final_flush :
    (∀ (slides : List Slide) (acc : List Element), acc ≠ [] →
      SlideParser.parse_loop [] slides acc = .ok (slides ++ [Slide.new acc])) ∧
    (∀ slides : List Slide, SlideParser.parse_loop [] slides [] = .ok slides) ∧
    (∀ (bc : List AstNode) (slides : List Slide) (acc : List Element),
      SlideParser.parse_loop [AstNode.mk .thematicBreak bc] slides acc =
        .ok (slides ++ [Slide.new acc])) ∧
    (∀ (v : NodeValue) (ns : List AstNode) (es : List Element),
      List.Forall₂ (fun n e => SlideParser.parse_element n = Except.ok e) ns es →
      (∀ n ∈ ns, n.value ≠ NodeValue.thematicBreak) → ns ≠ [] →
      SlideParser.parse (AstNode.mk v ns) = .ok [Slide.new es]) := by
  refine ⟨?_, ?_, ?_, ?_⟩
  · intro slides acc hacc
    rw [parse_loop_nil]
    simp [hacc]
  · intro slides
    rw [parse_loop_nil]
    simp
  · intro bc slides acc
    rw [parse_loop_break, parse_loop_nil]
    simp
  · intro v ns es hf hnb hne
    have hlen := List.Forall₂.length_eq hf
    have hes : es ≠ [] := by
      intro h
      subst h
      simp at hlen
      exact hne hlen
    rw [SlideParser.parse, AstNode.children, parse_loop_forall2 ns es hf hnb [] [],
      parse_loop_nil]
    simp [hes]

/-- C5 witness: the first and last parts of the claim applied to the
concrete one-paragraph document, whose hypotheses hold there. -/
theorem claim5_final_flush_witness :
    SlideParser.parse_loop [] [] [elemA] = .ok [Slide.new [elemA]] ∧
    SlideParser.parse (AstNode.mk .document [paraA]) = .ok [Slide.new [elemA]] := by
  constructor
  · simpa using claim5_final_flush.1 [] [elemA] (by simp)
  · exact claim5_final_flush.2.2.2 .document [paraA] [elemA]
      (List.Forall₂.cons
        (by simp [SlideParser.parse_element, SlideParser.parse_paragraph,
          SlideParser.parse_text, SlideParser.parse_text_chunks, paraA, elemA,
          AstNode.value, AstNode.children, TextChunk.unformatted, TextChunk.formatted,
          exceptOkBind])
        List.Forall₂.nil)
      (by simp [paraA, AstNode.value])
      (by simp)

/-- C7: compilation is deterministic (a pure function of the input tree),
and on the stated fragment (no unsupported block or inline kinds) it
returns a well-defined successful slide list. -/
theorem claim7_deterministic :
    ∀ root : AstNode,
      SlideParser.parse root = SlideParser.parse root ∧
      (specHasBadBlock root.children = false →
        ∃ slides, SlideParser.parse root = .ok slides) := by
  intro root
  refine ⟨rfl, fun h => ?_⟩
  have := parse_loop_isOk root.children [] []
  rw [h] at this
  cases heq : SlideParser.parse root with
  | ok slides => exact ⟨slides, rfl⟩
  | error e =>
    rw [SlideParser.parse] at heq
    rw [heq] at this
    simp [exceptIsOk] at this

/-- C7 witness: the claim applied to the concrete one-paragraph document,
which contains no unsupported kind. -/
theorem claim7_deterministic_witness :
    ∃ slides, SlideParser.parse (AstNode.mk .document [paraA]) = .ok slides :=
  (claim7_deterministic (AstNode.mk .document [paraA])).2
    (by simp [specHasBadBlock, specHasBadInline, AstNode.children, AstNode.value, paraA])

/-- C10: a document tree with no top-level blocks compiles successfully to
the empty slide list: no error and no slide, not even an empty one. -/
theorem claim10_empty_document :
    ∀ v : NodeValue, SlideParser.parse (AstNode.mk v []) = .ok [] := by
  intro v
  rw [SlideParser.parse, AstNode.children, parse_loop_nil]
  simp

/-- C2: for every non-empty slide sequence, draw appends to the buffered
handle first a full-screen clear and a cursor move to the origin (row 0,
column 0), then exactly the operations of the first slide's elements in
element order, then a single flush at the very end (no flush among the
element operations); the output never depends on any slide after the
first. -/
theorem claim2_draw_first_slide_only :
    ∀ (handle : List DrawOp) (s : Slide) (rest : List Slide),
      Drawer.draw handle (s :: rest) =
        some (handle ++ ([DrawOp.clearAll, DrawOp.moveTo 0 0] ++
          (s.elements.flatMap elementOps ++ [DrawOp.flush]))) ∧
      DrawOp.flush ∉ [DrawOp.clearAll, DrawOp.moveTo 0 0] ++ s.elements.flatMap elementOps ∧
      Drawer.draw handle (s :: rest) = Drawer.draw handle [s] := by
  intro handle s rest
  refine ⟨?_, ?_, ?_⟩
  · simp [Drawer.draw, Drawer.draw_slide_eq, slideOps, queueOp]
  · intro h
    rcases List.mem_append.mp h with h1 | h1
    · simp at h1
    · obtain ⟨e, _, he⟩ := List.mem_flatMap.mp h1
      exact flush_not_mem_elementOps e he
  · simp [Drawer.draw]

/-- C4: text compilation carries the format by value and flattens nested
chunks in place; a strong node inside an emphasis node (or the reverse)
yields one chunk with both Bold and Italic set, identically in either
nesting order; and combining formats is a union: idempotent and
commutative, with `add_bold`/`add_italics` being union with the singleton
Bold / Italic format. -/
theorem claim4_format_union :
    (∀ (content : String) (f : TextFormat) (cs : List AstNode),
      SlideParser.parse_text_chunks
          [AstNode.mk .strong [AstNode.mk .emph [AstNode.mk (.text content) cs]]] f =
        .ok [TextChunk.formatted content f.add_bold.add_italics] ∧
      SlideParser.parse_text_chunks
          [AstNode.mk .emph [AstNode.mk .strong [AstNode.mk (.text content) cs]]] f =
        .ok [TextChunk.formatted content f.add_italics.add_bold]) ∧
    (∀ f : TextFormat,
      f.add_bold.add_italics = f.add_italics.add_bold ∧
      f.add_bold.add_italics.bold = true ∧ f.add_bold.add_italics.italics = true) ∧
    (∀ a b : TextFormat,
      TextFormat.union a b = TextFormat.union b a ∧ TextFormat.union a a = a) ∧
    (∀ f : TextFormat,
      f.add_bold = TextFormat.union f { bold := true, italics := false } ∧
      f.add_italics = TextFormat.union f { bold := false, italics := true }) ∧
    (∀ (s1 s2 s3 : String) (f : TextFormat),
      SlideParser.parse_text_chunks
          [AstNode.mk .strong [AstNode.mk (.text s1) [], AstNode.mk (.text s2) []],
           AstNode.mk (.text s3) []] f =
        .ok [TextChunk.formatted s1 f.add_bold, TextChunk.formatted s2 f.add_bold,
             TextChunk.formatted s3 f]) := by
  refine ⟨?_, ?_, ?_, ?_, ?_⟩
  · intro content f cs
    constructor <;>
      simp [SlideParser.parse_text_chunks, exceptOkBind]
  · intro f
    refine ⟨?_, by simp [TextFormat.add_bold, TextFormat.add_italics], ?_⟩ <;>
      simp [TextFormat.add_bold, TextFormat.add_italics]
  · intro a b
    constructor <;> simp [TextFormat.union, Bool.or_comm]
  · intro f
    constructor <;> simp [TextFormat.union, TextFormat.add_bold, TextFormat.add_italics]
  · intro s1 s2 s3 f
    simp [SlideParser.parse_text_chunks, exceptOkBind]

/-- C6: for every element the emitted sequence begins with a column-only
move to column 0; a heading then sets bold, prints the chunks, moves down
2 rows and resets attributes; a paragraph prints the chunks and moves down
2 rows with no attribute commands; each chunk prints styled with its own
format's Bold/Italic flags. -/
theorem claim6_element_ops :
    ∀ (handle : List DrawOp) (t : Text) (level : Nat),
      Drawer.draw_element handle (Element.Heading t level) =
        handle ++ [DrawOp.moveToColumn 0, DrawOp.setAttribute .bold] ++ textOps t ++
          [DrawOp.moveDown 2, DrawOp.setAttribute .reset] ∧
      Drawer.draw_element handle (Element.Paragraph t) =
        handle ++ [DrawOp.moveToColumn 0] ++ textOps t ++ [DrawOp.moveDown 2] ∧
      textOps t = t.chunks.map
        (fun chunk =>
          DrawOp.printStyledContent chunk.text chunk.format.has_bold chunk.format.has_italics) ∧
      (∀ e : Element, ∃ tl : List DrawOp,
        Drawer.draw_element handle e = handle ++ DrawOp.moveToColumn 0 :: tl) := by
  intro handle t level
  refine ⟨?_, ?_, rfl, ?_⟩
  · simp [Drawer.draw_element_eq, elementOps]
  · simp [Drawer.draw_element_eq, elementOps]
  · intro e
    cases e with
    | Heading t2 l2 =>
      exact ⟨DrawOp.setAttribute .bold ::
          (textOps t2 ++ [DrawOp.moveDown 2, DrawOp.setAttribute .reset]),
        by simp [Drawer.draw_element_eq, elementOps]⟩
    | Paragraph t2 =>
      exact ⟨textOps t2 ++ [DrawOp.moveDown 2],
        by simp [Drawer.draw_element_eq, elementOps]⟩

/-- C8: draw requires a non-empty slide sequence: on every non-empty
sequence the indexing of the first slide succeeds and drawing produces an
operation list, while on the empty sequence the indexing of `slides[0]`
fails hard (modelled as `none`, the out-of-bounds panic). -/
theorem claim8_nonempty_precondition :
    (∀ handle : List DrawOp, Drawer.draw handle [] = none) ∧
    (∀ (handle : List DrawOp) (s : Slide) (rest : List Slide),
      ([] : List Slide)[0]? = none ∧ (s :: rest)[0]? = some s ∧
      ∃ ops, Drawer.draw handle (s :: rest) = some ops) := by
  refine ⟨fun handle => rfl, fun handle s rest => ⟨by simp, by simp, ?_⟩⟩
  exact ⟨Drawer.draw_slide (queueOp (queueOp handle .clearAll) (.moveTo 0 0)) s,
    by simp [Drawer.draw]⟩

/-- C9: constructing the renderer immediately queues exactly one
hide-cursor command, and no renderer operation (construction or any draw
from the constructed handle) ever emits a show-cursor command. -/
theorem claim9_cursor_hidden :
    Drawer.new = [DrawOp.hideCursor] ∧
    DrawOp.showCursor ∉ Drawer.new ∧
    (∀ (slides : List Slide) (ops : List DrawOp),
      Drawer.draw Drawer.new slides = some ops → DrawOp.showCursor ∉ ops) := by
  refine ⟨rfl, by simp [Drawer.new, queueOp], ?_⟩
  intro slides ops h
  cases slides with
  | nil => simp [Drawer.draw] at h
  | cons s rest =>
    have hd : Drawer.draw Drawer.new (s :: rest) =
        some (Drawer.draw_slide
          (queueOp (queueOp Drawer.new DrawOp.clearAll) (DrawOp.moveTo 0 0)) s) := by
      simp [Drawer.draw]
    rw [hd] at h
    obtain rfl := Option.some.inj h
    rw [Drawer.draw_slide_eq]
    intro hmem
    rcases List.mem_append.mp hmem with h1 | h1
    · simp [Drawer.new, queueOp] at h1
    · exact showCursor_not_mem_slideOps s h1

/-- C9 witness: the draw part of the claim applied to a concrete one-slide
sequence, discharging its hypothesis by evaluating the drawer there. -/
theorem claim9_cursor_hidden_witness :
    DrawOp.showCursor ∉
      [DrawOp.hideCursor, DrawOp.clearAll, DrawOp.moveTo 0 0, DrawOp.flush] :=
  claim9_cursor_hidden.2.2 [Slide.new []]
    [DrawOp.hideCursor, DrawOp.clearAll, DrawOp.moveTo 0 0, DrawOp.flush]
    (by simp [Drawer.draw, Drawer.draw_slide, Drawer.new, queueOp, Slide.new])
